import Mathlib

set_option maxRecDepth 8000

/-!
Verification of the VetFoodRx scrape-normalize-persist pipeline.

This file gives a shallow embedding, in Lean 4, of the pipeline code in
`src/netlify/functions/scheduled-price-update.js` (the scheduled price
reconciler plus the comprehensive product scraper that is concatenated into
the same file) and `src/netlify/functions/update-product-database.js`
(the normalizer / full-update handler), and proves or refutes the frozen
claims about that code.

Modelling conventions:
* JavaScript numbers are modelled as rationals (`ℚ`); wall-clock timestamps
  and delays are abstracted away (they do not influence any claim's data
  flow).
* Fallible operations are modelled with `Option` / `Except`.
* JavaScript truthiness on strings (both `null`/`undefined` and the empty
  string are falsy) is modelled by `jsTruthy` / `jsStrOr`.
* Regular-expression sweeps over raw markup are modelled at the match-list
  level where a claim only concerns the post-match processing: the list of
  captured strings (or parsed numbers) is the function's input, exactly as
  the code folds over `matchAll` results.
-/

/-! ## Small JavaScript-semantics helpers -/

/-- Truthiness of an optional JavaScript string: `null`/`undefined` and the
empty string are falsy, every other string is truthy. -/
def jsTruthy : Option String → Bool
  | none => false
  | some s => !(s == "")

/-- `v || dflt` for JavaScript strings: the default is used when `v` is
`null`/`undefined` or the empty string. -/
def jsStrOr (v : Option String) (dflt : String) : String :=
  match v with
  | none => dflt
  | some s => if s == "" then dflt else s

/-- Whether `pat` matches `hay` starting at its head (character lists). -/
def leadMatch : List Char → List Char → Bool
  | [], _ => true
  | _ :: _, [] => false
  | a :: as, b :: bs => a == b && leadMatch as bs

/-- Whether `pat` occurs somewhere inside `hay` (character lists). -/
def containsSeq (pat : List Char) : List Char → Bool
  | [] => leadMatch pat []
  | c :: rest => leadMatch pat (c :: rest) || containsSeq pat rest

/-- JavaScript `hay.includes(pat)`: substring containment. -/
def strContains (hay pat : String) : Bool :=
  containsSeq pat.toList hay.toList

/-- First-occurrence deduplication, as a JavaScript `Set` built by repeated
`add` preserves insertion order; `seen` holds the values already emitted. -/
def jsSetDedupAux {α : Type} [DecidableEq α] (seen : List α) : List α → List α
  | [] => []
  | a :: rest =>
      if a ∈ seen then jsSetDedupAux seen rest
      else a :: jsSetDedupAux (a :: seen) rest

/-- `[...new Set(l)]`: deduplicate keeping first occurrences. -/
def jsSetDedup {α : Type} [DecidableEq α] (l : List α) : List α :=
  jsSetDedupAux [] l

/-- The decimal rendering used when a JavaScript number is interpolated into
a template string. On our rational model it prints integers without a
decimal point and prices with up to two decimal places exactly the way
JavaScript prints the corresponding doubles (e.g. `52.99` renders as
"52.99", `50` as "50"); other rationals fall back to `toString`. -/
def renderNum (q : ℚ) : String :=
  if q.den = 1 then toString q.num
  else if ((100 : ℚ) * q).den = 1 then
    let cents : ℤ := ((100 : ℚ) * q).num
    let whole : ℤ := cents / 100
    let frac : ℤ := cents % 100
    if frac % 10 = 0 then toString whole ++ "." ++ toString (frac / 10)
    else if frac < 10 then toString whole ++ ".0" ++ toString frac
    else toString whole ++ "." ++ toString frac
  else toString q

/-! ## Page Fetcher (`fetchPage`, scheduled-price-update.js lines 228-280)

`fetchPage(url, retries)` is driven by the network: each attempt either
returns a body with a status, redirects, fails at the transport level, or
exceeds the 30-second timeout.  We model the network as the list of events
the successive attempts observe, and reproduce the promise settlement logic
of the source: a 2xx body resolves; a 3xx with a location recurses with the
same `retries`; another status rejects with an HTTP error; a transport
error retries (after a 1-second delay, abstracted here) while `retries > 0`
and otherwise rejects; the 30-second timeout destroys the request and
rejects the already-pending promise immediately — the promise is settled,
so the retry scheduled by the subsequent socket error event can never
deliver a result. -/

/-- What one attempt of the fetcher observes from the network. -/
inductive AttemptEvent where
  | success (body : String)
  | redirect (location : String)
  | httpError (status : Nat)
  | transportError (message : String)
  | timeout
deriving DecidableEq, Repr

/-- The errors `fetchPage` can reject with. -/
inductive FetchError where
  | http (status : Nat)
  | transport (message : String)
  | timeout
deriving DecidableEq, Repr

/-- `fetchPage` over the event list of its successive attempts; `none` means
the event list ran out before the promise settled. -/
def fetchPage : Nat → List AttemptEvent → Option (Except FetchError String)
  | _, [] => none
  | retries, e :: rest =>
    match e with
    | AttemptEvent.success body => some (Except.ok body)
    | AttemptEvent.redirect _ => fetchPage retries rest
    | AttemptEvent.httpError s => some (Except.error (FetchError.http s))
    | AttemptEvent.transportError m =>
        if retries > 0 then fetchPage (retries - 1) rest
        else some (Except.error (FetchError.transport m))
    | AttemptEvent.timeout => some (Except.error FetchError.timeout)

/-! ## Price extraction (`extractProductData`, lines 374-400)

The three price patterns sweep the markup; every numeric capture is parsed
with `parseFloat` and kept only if it lies strictly between 5 and 500.  The
input of `extractPricing` is the list of parsed captures, in sweep order. -/

/-- The price structure assembled by the scraper; `range` and `average` are
absent on the synthesized fallback produced by the normalizer. -/
structure PriceInfo where
  estimate : ℚ
  range : Option String
  average : Option ℚ
  note : String
deriving DecidableEq, Repr

/-- The plausibility filter of lines 385-389: `price > 5 && price < 500`. -/
def priceInRange (p : ℚ) : Bool :=
  decide (5 < p) && decide (p < 500)

/-- The note attached to scraped price estimates (line 398). -/
def estimateNote : String :=
  "Estimated pricing - actual prices may vary by location and retailer"

/-- `[...new Set(foundPrices)].sort((a, b) => a - b)` (line 393): the
deduplicated, ascending-sorted price list. -/
def uniqueSorted (found : List ℚ) : List ℚ :=
  (jsSetDedup found).insertionSort (· ≤ ·)

/-- Lines 392-400 applied to the already-filtered price list: deduplicate,
sort ascending, then take the minimum as estimate, render the range, and
average the distinct values. -/
def extractPricingFromFound (found : List ℚ) : Option PriceInfo :=
  if found.isEmpty then none
  else
    let u := uniqueSorted found
    some
      { estimate := u.headD 0
        range :=
          some
            (if u.length > 1 then
              "$" ++ renderNum (u.headD 0) ++ " - $" ++ renderNum (u.getLastD 0)
            else "$" ++ renderNum (u.headD 0))
        average := some (u.sum / (u.length : ℚ))
        note := estimateNote }

/-- The full price-extraction step over the raw numeric captures of the
three price patterns: filter to the plausibility window, then aggregate. -/
def extractPricing (raw : List ℚ) : Option PriceInfo :=
  extractPricingFromFound (raw.filter priceInRange)


/-! ## Targeted-condition extraction (`extractProductData`, lines 431-456)

The scraper searches the lower-cased concatenation of the markup and the
extracted product name for each keyword of a fixed list (a case-insensitive
substring test), collects the hits into a `Set` in keyword order, appends
canonical tags for five synonyms, and truncates the insertion-ordered set
to 4 entries. -/

/-- The fixed condition keyword list of lines 432-438, in source order. -/
def conditionKeywords : List String :=
  [ "kidney disease", "renal", "urinary", "digestive", "gastrointestinal",
    "diabetes", "weight management", "obesity", "hepatic", "liver",
    "joint", "arthritis", "mobility", "skin", "food sensitivities",
    "allergies", "dental", "critical care", "hyperthyroidism",
    "pancreatitis", "heart", "cardiac" ]

/-- Lines 440-447: the keywords found in
`(html + ' ' + (product.name || '')).toLowerCase()`, in keyword order (the
`Set` preserves insertion order and each keyword is tested once). -/
def foundConditions (html : String) (name : Option String) : List String :=
  let textToSearch := (html ++ " " ++ name.getD "").toLower
  conditionKeywords.filter (fun c => strContains textToSearch c.toLower)

/-- `if (found.has(trigger)) found.add(target)`: append `target` at the end
of the insertion order when `trigger` is present and `target` is not. -/
def applySynonym (l : List String) (trigger target : String) : List String :=
  if trigger ∈ l then (if target ∈ l then l else l ++ [target]) else l

/-- The five synonym expansions of lines 450-454, in source order. -/
def expandSynonyms (l : List String) : List String :=
  let l1 := applySynonym l "renal" "kidney disease"
  let l2 := applySynonym l1 "gastrointestinal" "digestive"
  let l3 := applySynonym l2 "obesity" "weight management"
  let l4 := applySynonym l3 "arthritis" "joint"
  applySynonym l4 "cardiac" "heart"

/-- Lines 440-456 in full: keyword hits, synonym expansion, truncation to 4
(`Array.from(foundConditions).slice(0, 4)`). -/
def extractTargetedConditions (html : String) (name : Option String) : List String :=
  (expandSynonyms (foundConditions html name)).take 4

/-! ## Category Link Discoverer (`scrapeCategoryPage`, lines 497-528)

The two anchor patterns sweep the category markup for candidate hrefs; the
function's post-match processing (lines 509-523) resolves hrefs that start
with `/` against the retailer origin, keeps a link only when it contains
the substring `1800petmeds.com` and was not collected before, and truncates
to `maxProducts`.  The whole body is wrapped in a `try` whose `catch`
converts any fetch failure into an empty result.  `matchesOf` stands for
the href captures the two regular expressions produce on the page. -/

/-- Lines 513-516: resolve a root-relative href against the retailer. -/
def resolveLink (link : String) : String :=
  if link.startsWith "/" then "https://www.1800petmeds.com" ++ link else link

/-- Lines 509-521: fold the href captures into the insertion-ordered `Set`
of accepted links; `seen` holds the links collected so far. -/
def collectLinks (seen : List String) : List String → List String
  | [] => []
  | m :: rest =>
      let link := resolveLink m
      if strContains link "1800petmeds.com" && !(seen.contains link) then
        link :: collectLinks (link :: seen) rest
      else collectLinks seen rest

/-- Lines 509-523: accepted links truncated to `maxProducts`. -/
def processLinks (raw : List String) (maxProducts : Nat) : List String :=
  (collectLinks [] raw).take maxProducts

/-- `scrapeCategoryPage` over the result of its single `fetchPage` call: a
fetch failure is caught (`catch` of lines 524-527) and yields `[]`; a
fetched page yields the processed links.  The `Except` result type records
whether the call itself fails — it never does. -/
def scrapeCategoryPage (fetchResult : Except FetchError String)
    (matchesOf : String → List String) (maxProducts : Nat) :
    Except FetchError (List String) :=
  match fetchResult with
  | Except.error _ => Except.ok []
  | Except.ok html => Except.ok (processLinks (matchesOf html) maxProducts)

/-! ## Placeholder-image generator (`generateFallbackImage`,
update-product-database.js lines 116-157)

The generator renders a fixed SVG template parameterized by a brand accent
color, a species emoji, the upper-cased food type, the brand's first word
and the upper-cased species, and returns it as a base64 data URL.  `btoa`
is modelled as the Latin-1 base64 encoder over the string's UTF-16 code
units (each unit taken modulo 256); whether a runtime masks or rejects
units above 0xFF does not affect any claim proved here, since either
behaviour is a function of the input string. -/

/-- The UTF-16 code units of a string (astral code points become surrogate
pairs), the unit sequence JavaScript exposes to `btoa`. -/
def utf16Units (s : String) : List Nat :=
  s.toList.foldr
    (fun c acc =>
      let n := c.toNat
      (if n < 65536 then [n]
       else [55296 + (n - 65536) / 1024, 56320 + (n - 65536) % 1024]) ++ acc)
    []

/-- The base64 alphabet. -/
def b64Alphabet : List Char :=
  "ABCDEFGHIJKLMNOPQRSTUVWXYZabcdefghijklmnopqrstuvwxyz0123456789+/".toList

/-- The base64 digit for a 6-bit value. -/
def b64Char (n : Nat) : Char := b64Alphabet.getD n '='

/-- Base64 over a byte list, with `=` padding. -/
def b64Encode : List Nat → List Char
  | [] => []
  | [a] => [b64Char (a / 4), b64Char (a % 4 * 16), '=', '=']
  | [a, b] => [b64Char (a / 4), b64Char (a % 4 * 16 + b / 16), b64Char (b % 16 * 4), '=']
  | a :: b :: c :: rest =>
      b64Char (a / 4) :: b64Char (a % 4 * 16 + b / 16) ::
        b64Char (b % 16 * 4 + c / 64) :: b64Char (c % 64) :: b64Encode rest

/-- The `btoa` builtin on our model: base64 of the UTF-16 code units taken
as Latin-1 bytes. -/
def btoa (s : String) : String :=
  String.mk (b64Encode ((utf16Units s).map (· % 256)))

/-- The brand accent-color table of lines 117-123. -/
def brandColors : List (String × String) :=
  [ ("Hill's Prescription Diet", "#2E7D32"),
    ("Royal Canin Veterinary Diet", "#FF6B35"),
    ("Purina Pro Plan Veterinary Diets", "#1976D2"),
    ("Blue Buffalo", "#0D47A1"),
    ("Wellness", "#388E3C") ]

/-- `brandColors[brand] || "#87A96B"` (line 125). -/
def brandColorOf (brand : String) : String :=
  ((brandColors.find? (fun e => e.1 == brand)).map (fun e => e.2)).getD "#87A96B"

/-- The SVG template literal of lines 130-156 with its five interpolated
values (whitespace as in the source template). -/
def fallbackSvg (color emoji typeText brandShort speciesUpper : String) : String :=
  "\n    <svg width=\"300\" height=\"240\" xmlns=\"http://www.w3.org/2000/svg\">\n      <defs>\n        <linearGradient id=\"bg\" x1=\"0%\" y1=\"0%\" x2=\"100%\" y2=\"100%\">\n          <stop offset=\"0%\" style=\"stop-color:#F5E6D3;stop-opacity:1\" />\n          <stop offset=\"100%\" style=\"stop-color:#FEFEFE;stop-opacity:1\" />\n        </linearGradient>\n      </defs>\n      <rect width=\"300\" height=\"240\" fill=\"url(#bg)\"/>\n      <circle cx=\"150\" cy=\"80\" r=\"35\" fill=\""
    ++ color
    ++ "\" opacity=\"0.9\"/>\n      <text x=\"150\" y=\"90\" text-anchor=\"middle\" fill=\"white\" font-family=\"Arial, sans-serif\" font-size=\"24\" font-weight=\"bold\">\n        "
    ++ emoji
    ++ "\n      </text>\n      <text x=\"150\" y=\"130\" text-anchor=\"middle\" fill=\"#3C2415\" font-family=\"Arial, sans-serif\" font-size=\"16\" font-weight=\"600\">\n        "
    ++ brandShort
    ++ "\n      </text>\n      <text x=\"150\" y=\"155\" text-anchor=\"middle\" fill=\"#2D5016\" font-family=\"Arial, sans-serif\" font-size=\"14\" font-weight=\"500\">\n        "
    ++ typeText
    ++ " FOOD\n      </text>\n      <text x=\"150\" y=\"180\" text-anchor=\"middle\" fill=\""
    ++ color
    ++ "\" font-family=\"Arial, sans-serif\" font-size=\"12\" font-weight=\"500\">\n        VETERINARY DIET\n      </text>\n      <text x=\"150\" y=\"200\" text-anchor=\"middle\" fill=\"#87A96B\" font-family=\"Arial, sans-serif\" font-size=\"11\">\n        "
    ++ speciesUpper
    ++ " NUTRITION\n      </text>\n    </svg>\n  "

/-- Lines 116-157: the deterministic placeholder data URL for a species,
food type and brand. -/
def generateFallbackImage (species type brand : String) : String :=
  let color := brandColorOf brand
  let emoji := if species == "dog" then "🐕" else if species == "cat" then "🐱" else "🐾"
  let typeText := type.toUpper
  let brandShort := (brand.splitOn " ").headD ""
  "data:image/svg+xml;base64," ++
    btoa (fallbackSvg color emoji typeText brandShort species.toUpper)

/-! ## Database Normalizer (`processProducts` and the handler,
update-product-database.js lines 58-113 and 159-239)

`processProducts(dogProducts, catProducts)` walks the dog list then the cat
list, keeps only records whose `name` and `brand` are truthy, assigns
sequential `product-<n>` ids starting at 1, and fills each missing field
with its deterministic (or, for prices, pseudo-random) fallback.  The
`Math.random()` stream is modelled as an explicit function from the index
of the random call to the drawn value in `[0, 1)`; a call is consumed
exactly when a kept record lacks a price, in processing order. -/

/-- A raw scraped product record as consumed by the normalizer; every field
the source reads is optional (`null`/`undefined` modelled as `none`). -/
structure RawProduct where
  name : Option String
  brand : Option String
  targetedConditions : Option (List String)
  type : Option String
  bagSizes : Option (List String)
  features : Option (List String)
  nutritionalAnalysis : Option (List (String × String))
  feedingGuide : Option String
  image : Option String
  price : Option PriceInfo
  link : Option String
deriving DecidableEq, Repr

/-- A raw record with every field absent. -/
def blankRawProduct : RawProduct :=
  { name := none, brand := none, targetedConditions := none, type := none,
    bagSizes := none, features := none, nutritionalAnalysis := none,
    feedingGuide := none, image := none, price := none, link := none }

/-- A normalized catalog entry (lines 65-82 / 90-107). -/
structure CatalogEntry where
  id : String
  brand : String
  name : String
  species : String
  targetedConditions : List String
  type : String
  bagSizes : List String
  features : List String
  analysis : List (String × String)
  feedingGuide : String
  image : String
  price : PriceInfo
  link : String
deriving DecidableEq, Repr

/-- The species-specific feeding-guide fallback (lines 75 and 100). -/
def vetAdvice (species : String) : String :=
  "Consult your veterinarian for precise feeding amounts based on your " ++
    species ++ "'s weight, age, and activity level."

/-- One kept record turned into a catalog entry: `species` is fixed by the
list being processed, `mul`/`base` are the species' pseudo-random price
parameters (dog: 100/50, cat: 80/40), `r` is the `Math.random()` draw used
when the record lacks a price, and `idN` the sequential id counter. -/
def mkProcessedProduct (species : String) (mul base : ℕ) (r : ℚ) (idN : ℕ)
    (p : RawProduct) : CatalogEntry :=
  { id := "product-" ++ toString idN
    brand := p.brand.getD ""
    name := p.name.getD ""
    species := species
    targetedConditions := p.targetedConditions.getD []
    type := jsStrOr p.type "dry"
    bagSizes := p.bagSizes.getD []
    features := p.features.getD []
    analysis := p.nutritionalAnalysis.getD []
    feedingGuide := jsStrOr p.feedingGuide (vetAdvice species)
    image := jsStrOr p.image
      (generateFallbackImage species (jsStrOr p.type "dry") (p.brand.getD ""))
    price := p.price.getD
      { estimate := ((⌊r * (mul : ℚ)⌋ + (base : ℤ) : ℤ) : ℚ), range := none,
        average := none, note := estimateNote }
    link := jsStrOr p.link "https://www.1800petmeds.com" }

/-- One species' `forEach` loop (lines 63-85 / 88-110): records with falsy
`name` or `brand` are skipped, each kept record gets the next id, and a
`Math.random()` draw is consumed exactly when the kept record lacks a
price.  Returns the entries plus the final id counter and random index. -/
def processSpecies (species : String) (mul base : ℕ) (rand : ℕ → ℚ) :
    List RawProduct → ℕ → ℕ → List CatalogEntry × ℕ × ℕ
  | [], idN, rIdx => ([], idN, rIdx)
  | p :: rest, idN, rIdx =>
      if jsTruthy p.name && jsTruthy p.brand then
        let entry := mkProcessedProduct species mul base (rand rIdx) idN p
        let rIdx' := if p.price.isNone then rIdx + 1 else rIdx
        let t := processSpecies species mul base rand rest (idN + 1) rIdx'
        (entry :: t.1, t.2)
      else processSpecies species mul base rand rest idN rIdx

/-- `processProducts(dogProducts, catProducts)` (lines 58-113): dog records
first, then cat records, one shared id counter starting at 1 and one shared
`Math.random()` stream. -/
def processProducts (rand : ℕ → ℚ) (dogProducts catProducts : List RawProduct) :
    List CatalogEntry :=
  let d := processSpecies "dog" 100 50 rand dogProducts 1 0
  let c := processSpecies "cat" 80 40 rand catProducts d.2.1 d.2.2
  d.1 ++ c.1

/-- The body of one category's scraper response as the handler reads it:
`success`, the product list (`|| []` applied on read), and the
`totalFound` count used for metadata. -/
structure ScraperResult where
  success : Bool
  products : Option (List RawProduct)
  totalFound : Nat
deriving DecidableEq, Repr

/-- The snapshot structure assembled on lines 185-206 (the wall-clock
timestamps and the constant source/disclaimer/version strings carry no
claim content and are omitted). -/
structure ProductDatabase where
  products : List CatalogEntry
  totalProducts : Nat
  dogCount : Nat
  catCount : Nat
deriving DecidableEq, Repr

/-- The outcome of one full-update run: a 200 response with the new
database, or the 500 response of the `catch` block. -/
inductive RunOutcome where
  | success (db : ProductDatabase)
  | failure (error details : String)
deriving DecidableEq, Repr

/-- The `update-product-database` handler (lines 160-239) over the results
of its two `fetchFromScraper` calls: a rejected fetch (transport error,
timeout or invalid JSON, modelled as `Except.error` with the error message)
or a response whose `success` is falsy makes the run fail with the 500
`catch` response; otherwise the snapshot is built from the two product
lists. -/
def updateDatabaseHandler (rand : ℕ → ℚ)
    (dogResult catResult : Except String ScraperResult) : RunOutcome :=
  match dogResult, catResult with
  | Except.ok d, Except.ok c =>
      if d.success && c.success then
        let dogProducts := d.products.getD []
        let catProducts := c.products.getD []
        let processed := processProducts rand dogProducts catProducts
        RunOutcome.success
          { products := processed
            totalProducts := processed.length
            dogCount := dogProducts.length
            catCount := catProducts.length }
      else
        RunOutcome.failure "Database update failed"
          "Failed to scrape product data from one or more categories"
  | Except.error e, _ => RunOutcome.failure "Database update failed" e
  | _, Except.error e => RunOutcome.failure "Database update failed" e

/-! ## Price Reconciler (`updateProductPrices`,
scheduled-price-update.js lines 26-157)

For each catalog entry the run looks its id up in the static
`PRODUCT_MAPPINGS` table; entries without a mapping are pushed through
unchanged.  With a mapping, the external `productPriceScraper` function is
invoked with the two retailer slugs and the product id; its behaviour is a
parameter (`scraper`) of the model since only this caller's handling of the
outcome is under verification.  A thrown error (including a JSON parse
failure of the response body) is caught and the entry pushed unchanged; a
response is used only when its status code is 200 and its `averagePrice` is
truthy, and then only the `price` field of the entry is replaced.  The
2-second pacing delay is abstracted away. -/

/-- The static id → retailer-slug table of lines 26-75:
(product id, petmeds slug, wag slug). -/
def PRODUCT_MAPPINGS : List (String × String × String) :=
  [ ("hills-kd-dog-dry", "hills-prescription-diet-k-d-kidney-care-dry-dog-food",
     "hills-prescription-diet-kd-kidney-care-dry-dog-food"),
    ("hills-kd-dog-wet", "hills-prescription-diet-k-d-kidney-care-canned-dog-food",
     "hills-prescription-diet-kd-kidney-care-wet-dog-food"),
    ("hills-wd-dog-dry", "hills-prescription-diet-w-d-multi-benefit-dry-dog-food",
     "hills-prescription-diet-wd-weight-management-dry-dog-food"),
    ("hills-id-dog-dry", "hills-prescription-diet-i-d-digestive-care-dry-dog-food",
     "hills-prescription-diet-id-digestive-care-dry-dog-food"),
    ("hills-zd-dog-dry", "hills-prescription-diet-z-d-skin-food-sensitivities-dry-dog-food",
     "hills-prescription-diet-zd-food-sensitivities-dry-dog-food"),
    ("hills-cd-cat-dry", "hills-prescription-diet-c-d-multicare-urinary-care-dry-cat-food",
     "hills-prescription-diet-cd-multicare-urinary-care-dry-cat-food"),
    ("hills-yd-cat-dry", "hills-prescription-diet-y-d-thyroid-care-dry-cat-food",
     "hills-prescription-diet-yd-thyroid-care-dry-cat-food"),
    ("rc-renal-dog-dry", "royal-canin-veterinary-diet-renal-support-a-dry-dog-food",
     "royal-canin-veterinary-diet-renal-support-dry-dog-food"),
    ("rc-urinary-dog-dry", "royal-canin-veterinary-diet-urinary-so-dry-dog-food",
     "royal-canin-veterinary-diet-urinary-so-dry-dog-food"),
    ("ppvd-en-dog-dry", "purina-pro-plan-veterinary-diets-en-gastroenteric-dry-dog-food",
     "purina-pro-plan-veterinary-diets-en-gastroenteric-dry-dog-food"),
    ("ppvd-om-dog-dry", "purina-pro-plan-veterinary-diets-om-overweight-management-dry-dog-food",
     "purina-pro-plan-veterinary-diets-om-overweight-management-dry-dog-food") ]

/-- `PRODUCT_MAPPINGS[id]`: the (petmeds, wag) slug pair, when mapped. -/
def lookupMapping (id : String) : Option (String × String) :=
  (PRODUCT_MAPPINGS.find? (fun e => e.1 == id)).map (fun e => e.2)

/-- The `price` field of a stored catalog entry: either whatever the
previous snapshot held (opaque to this pass) or the reconciled structure
`{average, sources, lastUpdated}` written by lines 130-134. -/
inductive StoredPrice where
  | legacy (payload : String)
  | reconciled (average : ℚ) (sources : List (String × ℚ)) (lastUpdated : String)
deriving DecidableEq, Repr

/-- A catalog entry as the reconciler reads it from `products.json`: its
id, its price field, and the rest of the record, which the spread
`{...product, price: ...}` copies verbatim and which we keep opaque. -/
structure StoredProduct where
  id : String
  price : StoredPrice
  rest : String
deriving DecidableEq, Repr

/-- The outcome of one `scrapePrices` invocation as this caller sees it:
either a thrown error / unparsable body, or a parsed response with a status
code, an optional `averagePrice`, the per-source prices and a timestamp. -/
inductive ScrapeOutcome where
  | threw (message : String)
  | resp (statusCode : Nat) (averagePrice : Option ℚ)
      (sources : List (String × ℚ)) (timestamp : String)
deriving DecidableEq, Repr

/-- Truthiness of the optional `averagePrice` (0 is falsy). -/
def jsTruthyNum : Option ℚ → Bool
  | none => false
  | some q => !(q == 0)

/-- The body of the per-product loop (lines 104-153) for one entry. -/
def updateOne (scraper : String → String → String → ScrapeOutcome)
    (p : StoredProduct) : StoredProduct :=
  match lookupMapping p.id with
  | none => p
  | some slugs =>
      match scraper slugs.1 slugs.2 p.id with
      | ScrapeOutcome.threw _ => p
      | ScrapeOutcome.resp code avg sources ts =>
          if code == 200 && jsTruthyNum avg then
            { p with price := StoredPrice.reconciled (avg.getD 0) sources ts }
          else p

/-- `updateProductPrices(products)` (lines 99-157): every entry is pushed
exactly once, in order, so the run never fails and the output is the
per-entry map. -/
def updateProductPrices (scraper : String → String → String → ScrapeOutcome)
    (products : List StoredProduct) : List StoredProduct :=
  products.map (updateOne scraper)

/-- The expected id sequence `product-<start>, product-<start+1>, ...` of
length `n`, used to state the sequential-id property. -/
def productIds (start : ℕ) : ℕ → List String
  | 0 => []
  | n + 1 => ("product-" ++ toString start) :: productIds (start + 1) n

/-- The closure property claimed for the synonym mapping: each trigger
present in the list forces its canonical tag to be present too. -/
def synonymClosed (L : List String) : Prop :=
  ("renal" ∈ L → "kidney disease" ∈ L) ∧
  ("gastrointestinal" ∈ L → "digestive" ∈ L) ∧
  ("obesity" ∈ L → "weight management" ∈ L) ∧
  ("arthritis" ∈ L → "joint" ∈ L) ∧
  ("cardiac" ∈ L → "heart" ∈ L)

/-- A fully-populated usable dog record (truthy name and brand, every
optional field present) for concrete instantiations. -/
def sampleDogRecord : RawProduct :=
  { name := some "Hills kd Dry Dog Food", brand := some "Hills Prescription Diet",
    targetedConditions := some ["kidney disease"], type := some "dry",
    bagSizes := some ["8.5 lb"], features := some [],
    nutritionalAnalysis := some [], feedingGuide := some "guide",
    image := some "https://img.example/kd.jpg",
    price := some { estimate := 52.99, range := some "$52.99", average := some 52.99,
                    note := estimateNote },
    link := some "https://www.1800petmeds.com/kd" }

/-- A fully-populated usable cat record for concrete instantiations. -/
def sampleCatRecord : RawProduct :=
  { name := some "Hills cd Dry Cat Food", brand := some "Hills Prescription Diet",
    targetedConditions := some ["urinary"], type := some "dry",
    bagSizes := some ["4 lb"], features := some [],
    nutritionalAnalysis := some [], feedingGuide := some "guide",
    image := some "https://img.example/cd.jpg",
    price := some { estimate := 40.99, range := some "$40.99", average := some 40.99,
                    note := estimateNote },
    link := some "https://www.1800petmeds.com/cd" }

/-- The price structure the scraper builds from the two matches $52.99 and
$54.99 (the end-to-end example of the spec). -/
def samplePricing : PriceInfo :=
  { estimate := 52.99, range := some "$52.99 - $54.99", average := some 53.99,
    note := estimateNote }

/-! ## Helper lemmas -/

theorem mem_jsSetDedupAux {α : Type} [DecidableEq α] (x : α) :
    ∀ (l seen : List α), x ∈ jsSetDedupAux seen l ↔ x ∈ l ∧ x ∉ seen := by
  intro l
  induction l with
  | nil => intro seen; simp [jsSetDedupAux]
  | cons a rest ih =>
      intro seen
      by_cases ha : a ∈ seen
      · simp only [jsSetDedupAux, if_pos ha, ih, List.mem_cons]
        constructor
        · rintro ⟨hx, hs⟩; exact ⟨Or.inr hx, hs⟩
        · rintro ⟨hx | hx, hs⟩
          · exact absurd (hx ▸ ha) hs
          · exact ⟨hx, hs⟩
      · simp only [jsSetDedupAux, if_neg ha, List.mem_cons, ih]
        constructor
        · rintro (rfl | ⟨hx, hs⟩)
          · exact ⟨Or.inl rfl, ha⟩
          · refine ⟨Or.inr hx, fun hseen => hs (Or.inr hseen)⟩
        · rintro ⟨rfl | hx, hs⟩
          · exact Or.inl rfl
          · by_cases hxa : x = a
            · exact Or.inl hxa
            · exact Or.inr ⟨hx, fun hme => by
                rcases hme with h | h
                · exact hxa h
                · exact hs h⟩

theorem mem_jsSetDedup {α : Type} [DecidableEq α] {x : α} {l : List α} :
    x ∈ jsSetDedup l ↔ x ∈ l := by
  simp [jsSetDedup, mem_jsSetDedupAux]

theorem mem_getLastD {α : Type} : ∀ (l : List α) (d : α), l ≠ [] → l.getLastD d ∈ l := by
  intro l
  induction l with
  | nil => intro d h; exact absurd rfl h
  | cons a t ih =>
      intro d _
      cases t with
      | nil => simp [List.getLastD]
      | cons b t' =>
          have h2 := ih a (by simp)
          simp only [List.getLastD_cons] at h2 ⊢
          exact List.mem_cons_of_mem a h2

theorem sorted_headD_le {l : List ℚ} (h : List.Sorted (· ≤ ·) l) {x : ℚ}
    (hx : x ∈ l) : l.headD 0 ≤ x := by
  cases l with
  | nil => cases hx
  | cons a t =>
      rcases List.mem_cons.mp hx with rfl | hx
      · exact le_refl x
      · exact (List.sorted_cons.mp h).1 x hx

theorem sorted_le_getLastD :
    ∀ {l : List ℚ}, List.Sorted (· ≤ ·) l → ∀ {x : ℚ}, x ∈ l → ∀ (d : ℚ), x ≤ l.getLastD d := by
  intro l
  induction l with
  | nil => intro _ x hx; cases hx
  | cons a t ih =>
      intro h x hx d
      simp only [List.getLastD_cons]
      rcases List.mem_cons.mp hx with rfl | hx
      · cases ht : t with
        | nil => simp [List.getLastD]
        | cons b t' =>
            have hmem : t.getLastD x ∈ t := ht ▸ mem_getLastD (b :: t') x (by simp)
            exact ht ▸ (List.sorted_cons.mp h).1 _ (ht ▸ hmem)
      · exact ih (List.sorted_cons.mp h).2 hx a

theorem mul_length_lt_sum {a : ℚ} :
    ∀ {l : List ℚ}, l ≠ [] → (∀ x ∈ l, a < x) → a * l.length < l.sum := by
  intro l
  induction l with
  | nil => intro h; exact absurd rfl h
  | cons x t ih =>
      intro _ hall
      have hx : a < x := hall x (List.mem_cons_self x t)
      have h2 : a * t.length ≤ t.sum := by
        rcases eq_or_ne t [] with rfl | hne
        · simp
        · exact le_of_lt (ih hne (fun y hy => hall y (List.mem_cons_of_mem x hy)))
      have hlen : ((x :: t).length : ℚ) = (t.length : ℚ) + 1 := by
        push_cast [List.length_cons]; ring
      rw [List.sum_cons, hlen]
      nlinarith

theorem sum_lt_mul_length {b : ℚ} :
    ∀ {l : List ℚ}, l ≠ [] → (∀ x ∈ l, x < b) → l.sum < b * l.length := by
  intro l
  induction l with
  | nil => intro h; exact absurd rfl h
  | cons x t ih =>
      intro _ hall
      have hx : x < b := hall x (List.mem_cons_self x t)
      have h2 : t.sum ≤ b * t.length := by
        rcases eq_or_ne t [] with rfl | hne
        · simp
        · exact le_of_lt (ih hne (fun y hy => hall y (List.mem_cons_of_mem x hy)))
      have hlen : ((x :: t).length : ℚ) = (t.length : ℚ) + 1 := by
        push_cast [List.length_cons]; ring
      rw [List.sum_cons, hlen]
      nlinarith

theorem avg_mem_open {l : List ℚ} {a b : ℚ} (hne : l ≠ [])
    (hall : ∀ x ∈ l, a < x ∧ x < b) :
    a < l.sum / l.length ∧ l.sum / l.length < b := by
  have hpos : (0 : ℚ) < l.length := by
    exact_mod_cast List.length_pos.mpr hne
  constructor
  · rw [lt_div_iff₀ hpos]
    exact mul_length_lt_sum hne (fun x hx => (hall x hx).1)
  · rw [div_lt_iff₀ hpos]
    exact sum_lt_mul_length hne (fun x hx => (hall x hx).2)

theorem mem_applySynonym {l : List String} {t g x : String}
    (h : x ∈ applySynonym l t g) : x ∈ l ∨ x = g := by
  unfold applySynonym at h
  split at h
  · split at h
    · exact Or.inl h
    · rcases List.mem_append.mp h with h | h
      · exact Or.inl h
      · exact Or.inr (List.mem_singleton.mp h)
  · exact Or.inl h

theorem applySynonym_mono {l : List String} {t g x : String}
    (h : x ∈ l) : x ∈ applySynonym l t g := by
  unfold applySynonym
  split
  · split
    · exact h
    · exact List.mem_append.mpr (Or.inl h)
  · exact h

theorem applySynonym_closed {l : List String} {t g : String}
    (h : t ∈ l) : g ∈ applySynonym l t g := by
  unfold applySynonym
  rw [if_pos h]
  split
  · assumption
  · exact List.mem_append.mpr (Or.inr (List.mem_singleton.mpr rfl))

theorem collectLinks_contains {u : String} :
    ∀ (raw seen : List String), u ∈ collectLinks seen raw →
      strContains u "1800petmeds.com" = true := by
  intro raw
  induction raw with
  | nil => intro seen h; cases h
  | cons m rest ih =>
      intro seen h
      unfold collectLinks at h
      dsimp only at h
      split at h
      · rcases List.mem_cons.mp h with rfl | h
        · rename_i hcond
          exact (Bool.and_eq_true _ _ |>.mp hcond).1
        · exact ih _ h
      · exact ih _ h

theorem collectLinks_nodup :
    ∀ (raw seen : List String),
      (collectLinks seen raw).Nodup ∧ ∀ u ∈ collectLinks seen raw, u ∉ seen := by
  intro raw
  induction raw with
  | nil => intro seen; exact ⟨List.nodup_nil, fun u h => absurd h (List.not_mem_nil u)⟩
  | cons m rest ih =>
      intro seen
      unfold collectLinks
      dsimp only
      split
      · rename_i hcond
        have hns : resolveLink m ∉ seen := by
          have h2 := (Bool.and_eq_true _ _ |>.mp hcond).2
          simpa using h2
        obtain ⟨hnd, hout⟩ := ih (resolveLink m :: seen)
        constructor
        · refine List.nodup_cons.mpr ⟨fun hmem => ?_, hnd⟩
          exact hout _ hmem (List.mem_cons_self _ _)
        · intro u hu
          rcases List.mem_cons.mp hu with rfl | hu
          · exact hns
          · exact fun hseen => hout u hu (List.mem_cons_of_mem _ hseen)
      · obtain ⟨hnd, hout⟩ := ih seen
        exact ⟨hnd, hout⟩

theorem productIds_length : ∀ (start n : ℕ), (productIds start n).length = n := by
  intro start n
  induction n generalizing start with
  | zero => rfl
  | succ k ih => simp [productIds, ih]

theorem productIds_add :
    ∀ (d : ℕ) (start c : ℕ),
      productIds start (d + c) = productIds start d ++ productIds (start + d) c := by
  intro d
  induction d with
  | zero =>
      intro start c
      simp [productIds, Nat.zero_add]
  | succ k ih =>
      intro start c
      rw [Nat.succ_add]
      show ("product-" ++ toString start) :: productIds (start + 1) (k + c) = _
      rw [ih (start + 1) c]
      have h : start + 1 + k = start + (k + 1) := by omega
      simp [productIds, h]

theorem processSpecies_spec (species : String) (mul base : ℕ) (rand : ℕ → ℚ) :
    ∀ (l : List RawProduct) (idN rIdx : ℕ),
      (∀ p ∈ l, (jsTruthy p.name && jsTruthy p.brand) = true) →
      (processSpecies species mul base rand l idN rIdx).1.map (fun e => e.id)
          = productIds idN l.length ∧
        (processSpecies species mul base rand l idN rIdx).2.1 = idN + l.length ∧
        (processSpecies species mul base rand l idN rIdx).1.map (fun e => e.species)
          = List.replicate l.length species := by
  intro l
  induction l with
  | nil => intro idN rIdx _; exact ⟨rfl, by simp [processSpecies], rfl⟩
  | cons p rest ih =>
      intro idN rIdx hall
      have hp := hall p (List.mem_cons_self p rest)
      have hrest : ∀ q ∈ rest, (jsTruthy q.name && jsTruthy q.brand) = true :=
        fun q hq => hall q (List.mem_cons_of_mem p hq)
      obtain ⟨h1, h2, h3⟩ :=
        ih (idN + 1) (if p.price.isNone then rIdx + 1 else rIdx) hrest
      unfold processSpecies
      rw [if_pos hp]
      refine ⟨?_, ?_, ?_⟩
      · simp only [List.map_cons, List.length_cons, h1]
        rfl
      · simp only [h2, List.length_cons]
        omega
      · simp only [List.map_cons, List.length_cons, h3]
        rfl

theorem headD_mem {α : Type} {l : List α} (h : l ≠ []) (d : α) : l.headD d ∈ l := by
  cases l with
  | nil => exact absurd rfl h
  | cons a t => exact List.mem_cons_self a t

theorem filter_self_idem {α : Type} (p : α → Bool) :
    ∀ l : List α, (l.filter p).filter p = l.filter p := by
  intro l
  induction l with
  | nil => rfl
  | cons a t ih =>
      by_cases h : p a = true
      · simp [List.filter_cons, h, ih]
      · simp [List.filter_cons, h, ih]

theorem mem_applySynonym_ne {l : List String} {t g x : String}
    (h : x ∈ applySynonym l t g) (hne : x ≠ g) : x ∈ l :=
  (mem_applySynonym h).resolve_right hne

theorem uniqueSorted_sorted (found : List ℚ) :
    List.Sorted (· ≤ ·) (uniqueSorted found) :=
  List.sorted_insertionSort _ _

theorem mem_uniqueSorted {found : List ℚ} {x : ℚ} :
    x ∈ uniqueSorted found ↔ x ∈ found := by
  unfold uniqueSorted
  rw [List.mem_insertionSort _, mem_jsSetDedup]

theorem uniqueSorted_ne_nil {found : List ℚ} (h : found ≠ []) :
    uniqueSorted found ≠ [] := by
  cases hf : found with
  | nil => exact absurd hf h
  | cons a t =>
      intro hu
      have hm : a ∈ uniqueSorted found := mem_uniqueSorted.mpr (hf ▸ List.mem_cons_self a t)
      rw [hf, hu] at hm
      cases hm

theorem expandSynonyms_closed (l : List String) : synonymClosed (expandSynonyms l) := by
  unfold expandSynonyms synonymClosed
  set l1 := applySynonym l "renal" "kidney disease" with hl1
  set l2 := applySynonym l1 "gastrointestinal" "digestive" with hl2
  set l3 := applySynonym l2 "obesity" "weight management" with hl3
  set l4 := applySynonym l3 "arthritis" "joint" with hl4
  refine ⟨?_, ?_, ?_, ?_, ?_⟩
  · intro h
    have h4 : "renal" ∈ l4 := mem_applySynonym_ne h (by decide)
    have h3 : "renal" ∈ l3 := mem_applySynonym_ne h4 (by decide)
    have h2 : "renal" ∈ l2 := mem_applySynonym_ne h3 (by decide)
    have h1 : "renal" ∈ l1 := mem_applySynonym_ne h2 (by decide)
    have h0 : "renal" ∈ l := mem_applySynonym_ne h1 (by decide)
    have k1 : "kidney disease" ∈ l1 := applySynonym_closed h0
    exact applySynonym_mono (applySynonym_mono (applySynonym_mono (applySynonym_mono k1)))
  · intro h
    have h4 : "gastrointestinal" ∈ l4 := mem_applySynonym_ne h (by decide)
    have h3 : "gastrointestinal" ∈ l3 := mem_applySynonym_ne h4 (by decide)
    have h2 : "gastrointestinal" ∈ l2 := mem_applySynonym_ne h3 (by decide)
    have h1 : "gastrointestinal" ∈ l1 := mem_applySynonym_ne h2 (by decide)
    have k2 : "digestive" ∈ l2 := applySynonym_closed h1
    exact applySynonym_mono (applySynonym_mono (applySynonym_mono k2))
  · intro h
    have h4 : "obesity" ∈ l4 := mem_applySynonym_ne h (by decide)
    have h3 : "obesity" ∈ l3 := mem_applySynonym_ne h4 (by decide)
    have h2 : "obesity" ∈ l2 := mem_applySynonym_ne h3 (by decide)
    have k3 : "weight management" ∈ l3 := applySynonym_closed h2
    exact applySynonym_mono (applySynonym_mono k3)
  · intro h
    have h4 : "arthritis" ∈ l4 := mem_applySynonym_ne h (by decide)
    have h3 : "arthritis" ∈ l3 := mem_applySynonym_ne h4 (by decide)
    have k4 : "joint" ∈ l4 := applySynonym_closed h3
    exact applySynonym_mono k4
  · intro h
    have h4 : "cardiac" ∈ l4 := mem_applySynonym_ne h (by decide)
    exact applySynonym_closed h4

/-! ## The claims -/

/-- C9: the placeholder-image generator is deterministic — any two calls of
`generateFallbackImage` with identical (species, type, brand) arguments
return byte-identical output strings.  The source function reads no mutable
state and draws no randomness; its embedding is a pure function of its
three arguments, so equal inputs give equal outputs. -/
theorem c9_generateFallbackImage_deterministic (s1 t1 b1 s2 t2 b2 : String)
    (hs : s1 = s2) (ht : t1 = t2) (hb : b1 = b2) :
    generateFallbackImage s1 t1 b1 = generateFallbackImage s2 t2 b2 := by
  subst hs; subst ht; subst hb; rfl

/-- C9 witness: the determinism theorem applied at a concrete call. -/
theorem c9_witness :
    generateFallbackImage "dog" "dry" "Wellness" =
      generateFallbackImage "dog" "dry" "Wellness" :=
  c9_generateFallbackImage_deterministic "dog" "dry" "Wellness" "dog" "dry" "Wellness"
    rfl rfl rfl

/-- C8: the price-reconciler run maps every catalog entry to exactly one
output entry in order (so per-entry failures never fail the run); an entry
whose id has no retailer-slug mapping, or whose scrape throws, or whose
response has a non-200 status or a falsy `averagePrice`, is returned
completely unchanged; and every entry keeps its id and all non-price fields
(`rest`), so a successful reconciliation changes only the price field. -/
theorem c8_updateProductPrices_frame
    (scraper : String → String → String → ScrapeOutcome)
    (products : List StoredProduct) :
    (updateProductPrices scraper products).length = products.length ∧
    updateProductPrices scraper products = products.map (updateOne scraper) ∧
    (∀ p : StoredProduct, lookupMapping p.id = none → updateOne scraper p = p) ∧
    (∀ (p : StoredProduct) (slugs : String × String),
      lookupMapping p.id = some slugs →
      (∀ msg, scraper slugs.1 slugs.2 p.id = ScrapeOutcome.threw msg →
        updateOne scraper p = p) ∧
      (∀ code avg srcs ts,
        scraper slugs.1 slugs.2 p.id = ScrapeOutcome.resp code avg srcs ts →
        (code == 200 && jsTruthyNum avg) = false → updateOne scraper p = p)) ∧
    (∀ p : StoredProduct,
      (updateOne scraper p).id = p.id ∧ (updateOne scraper p).rest = p.rest) := by
  refine ⟨List.length_map _ _, rfl, ?_, ?_, ?_⟩
  · intro p hnone
    unfold updateOne
    rw [hnone]
  · intro p slugs hsome
    constructor
    · intro msg hthrew
      unfold updateOne
      rw [hsome]
      dsimp only
      rw [hthrew]
    · intro code avg srcs ts hresp hcond
      unfold updateOne
      rw [hsome]
      dsimp only
      rw [hresp]
      dsimp only
      simp [hcond]
  · intro p
    unfold updateOne
    rcases h : lookupMapping p.id with _ | slugs
    · exact ⟨rfl, rfl⟩
    · dsimp only
      cases hs : scraper slugs.1 slugs.2 p.id with
      | threw msg => exact ⟨rfl, rfl⟩
      | resp code avg srcs ts =>
          dsimp only
          by_cases hc : (code == 200 && jsTruthyNum avg) = true
          · rw [if_pos hc]
            exact ⟨rfl, rfl⟩
          · rw [if_neg hc]
            exact ⟨rfl, rfl⟩

/-- C8 witness: the frame theorem applied to one unmapped entry and a
scraper that always throws. -/
theorem c8_witness :
    updateOne (fun _ _ _ => ScrapeOutcome.threw "boom")
        { id := "no-such-id", price := StoredPrice.legacy "old", rest := "r" } =
      { id := "no-such-id", price := StoredPrice.legacy "old", rest := "r" } :=
  (c8_updateProductPrices_frame (fun _ _ _ => ScrapeOutcome.threw "boom") []).2.2.1
    { id := "no-such-id", price := StoredPrice.legacy "old", rest := "r" } (by decide)

/-- C3 counterexample: the claim says a failed category-page fetch is
propagated to the caller; at a concrete failed fetch (a timeout) the call
instead returns the successful result `ok []` — the `catch` of lines
524-527 converts the failure into an empty link list. -/
theorem c3_counterexample :
    scrapeCategoryPage (Except.error FetchError.timeout) (fun _ => []) 50 =
        Except.ok [] ∧
      scrapeCategoryPage (Except.error FetchError.timeout) (fun _ => []) 50 ≠
        Except.error FetchError.timeout :=
  ⟨rfl, fun h => Except.noConfusion h⟩

/-- C3 (amended): when the single fetch of the category page fails — with
any transport, timeout or HTTP error — the discover call does not fail and
does not propagate the error: the error is caught and the call returns a
successful empty link list. -/
theorem c3_fetch_failure_caught (e : FetchError)
    (matchesOf : String → List String) (maxProducts : ℕ) :
    scrapeCategoryPage (Except.error e) matchesOf maxProducts = Except.ok [] := rfl

/-- C3 witness: the amended theorem at a concrete failed fetch. -/
theorem c3_witness :
    scrapeCategoryPage (Except.error (FetchError.transport "ECONNREFUSED"))
        (fun _ => ["/dog-food"]) 50 = Except.ok [] :=
  c3_fetch_failure_caught (FetchError.transport "ECONNREFUSED") (fun _ => ["/dog-food"]) 50

/-- C4 counterexample: the claim says a timed-out attempt is retried the
same way a transport error is, up to the retry budget.  With one retry left
and a next attempt that would succeed, a transport error leads to the
successful retry, but a timeout fails the whole call immediately: the
timeout callback rejects the settled promise before any retry could run. -/
theorem c4_counterexample :
    fetchPage 1 [AttemptEvent.timeout, AttemptEvent.success "page"] =
        some (Except.error FetchError.timeout) ∧
      fetchPage 1 [AttemptEvent.transportError "reset", AttemptEvent.success "page"] =
        some (Except.ok "page") :=
  ⟨rfl, rfl⟩

/-- C4 (amended): an attempt that exceeds the 30-second timeout fails the
whole `fetchPage` call immediately with the timeout error, regardless of
the remaining retry budget and of what later attempts would return; only a
transport error is retried, consuming one unit of the `retries` budget
(with the 1-second delay abstracted away). -/
theorem c4_timeout_not_retried :
    (∀ (retries : ℕ) (rest : List AttemptEvent),
        fetchPage retries (AttemptEvent.timeout :: rest) =
          some (Except.error FetchError.timeout)) ∧
    (∀ (retries : ℕ) (m : String) (rest : List AttemptEvent), 0 < retries →
        fetchPage retries (AttemptEvent.transportError m :: rest) =
          fetchPage (retries - 1) rest) := by
  constructor
  · intro retries rest; rfl
  · intro retries m rest hpos
    show (if retries > 0 then fetchPage (retries - 1) rest
          else some (Except.error (FetchError.transport m))) = fetchPage (retries - 1) rest
    rw [if_pos hpos]

/-- C4 witness: the amended theorem at a concrete event trace. -/
theorem c4_witness :
    fetchPage 3 [AttemptEvent.timeout] = some (Except.error FetchError.timeout) ∧
      fetchPage 3 [AttemptEvent.transportError "reset", AttemptEvent.success "page"] =
        fetchPage 2 [AttemptEvent.success "page"] :=
  ⟨c4_timeout_not_retried.1 3 [],
   c4_timeout_not_retried.2 3 "reset" [AttemptEvent.success "page"] (by decide)⟩

/-- C10 counterexample: the claim says every returned URL is absolute and
never resolves to another domain.  A relative href that happens to contain
the substring (producible by the first anchor pattern from
`<a href="diet-1800petmeds.com-food">dog food</a>`) passes through
unresolved, and an absolute href on a foreign host whose path contains the
substring is also kept — the filter of line 517 is a substring test, not a
host check. -/
theorem c10_counterexample :
    processLinks
        ["diet-1800petmeds.com-food", "https://evil.example/1800petmeds.com/dog-food"]
        50 =
      ["diet-1800petmeds.com-food", "https://evil.example/1800petmeds.com/dog-food"] ∧
    ("diet-1800petmeds.com-food".startsWith "http") = false ∧
    ("https://evil.example/1800petmeds.com/dog-food".startsWith "https://evil.example/")
      = true := by
  refine ⟨by with_unfolding_all rfl, by with_unfolding_all rfl, by with_unfolding_all rfl⟩

/-- C10 (amended): for every list of href captures and every limit, every
URL returned by the category link discoverer contains the substring
"1800petmeds.com" and the returned list contains no duplicate URLs; the
URLs are not necessarily absolute (only hrefs starting with "/" are
resolved) and the substring test does not constrain the URL's host. -/
theorem c10_links_substring_and_nodup (raw : List String) (maxProducts : ℕ) :
    (∀ u ∈ processLinks raw maxProducts, strContains u "1800petmeds.com" = true) ∧
      (processLinks raw maxProducts).Nodup := by
  constructor
  · intro u hu
    exact collectLinks_contains raw [] (List.take_subset _ _ hu)
  · exact ((collectLinks_nodup raw []).1).sublist (List.take_sublist _ _)

/-- C10 witness: the amended theorem at a concrete capture list. -/
theorem c10_witness :
    strContains "https://www.1800petmeds.com/dog-food" "1800petmeds.com" = true ∧
      (processLinks ["/dog-food"] 50).Nodup :=
  ⟨(c10_links_substring_and_nodup ["/dog-food"] 50).1
      "https://www.1800petmeds.com/dog-food"
      (by rw [show processLinks ["/dog-food"] 50
            = ["https://www.1800petmeds.com/dog-food"] from by with_unfolding_all rfl]
          exact List.mem_singleton.mpr rfl),
   (c10_links_substring_and_nodup ["/dog-food"] 50).2⟩

/-- C2 counterexample: the claim says the extracted `targetedConditions`
set is always closed under the synonym mapping.  On the markup
"renal urinary diabetes hepatic" (from which no product name is extracted:
it contains no h1/title tag and no JSON name field) the keyword sweep finds
four conditions, the synonym expansion appends "kidney disease" as a fifth,
and the `slice(0, 4)` cap of line 456 drops it: the result contains
"renal" but not "kidney disease". -/
theorem c2_counterexample :
    extractTargetedConditions "renal urinary diabetes hepatic" none =
        ["renal", "urinary", "diabetes", "hepatic"] ∧
      "renal" ∈ extractTargetedConditions "renal urinary diabetes hepatic" none ∧
      "kidney disease" ∉ extractTargetedConditions "renal urinary diabetes hepatic" none := by
  have he : extractTargetedConditions "renal urinary diabetes hepatic" none
      = ["renal", "urinary", "diabetes", "hepatic"] := by with_unfolding_all rfl
  refine ⟨he, by rw [he]; decide, by rw [he]; decide⟩

/-- C2 (amended): for every markup and extracted name, the synonym-expanded
condition set is closed under the fixed mapping ("renal" forces
"kidney disease", "gastrointestinal" forces "digestive", "obesity" forces
"weight management", "arthritis" forces "joint", "cardiac" forces "heart")
before the cap is applied; the final `targetedConditions` list is closed
under the mapping whenever at most 4 conditions remain after expansion —
otherwise the 4-entry truncation can evict the appended canonical tag. -/
theorem c2_synonym_closure (html : String) (name : Option String) :
    synonymClosed (expandSynonyms (foundConditions html name)) ∧
      ((expandSynonyms (foundConditions html name)).length ≤ 4 →
        synonymClosed (extractTargetedConditions html name)) := by
  refine ⟨expandSynonyms_closed _, fun hlen => ?_⟩
  have he : extractTargetedConditions html name
      = expandSynonyms (foundConditions html name) := by
    unfold extractTargetedConditions
    exact List.take_of_length_le hlen
  rw [he]
  exact expandSynonyms_closed _

/-- C2 witness: the amended theorem at concrete markup that matches only
"renal", whose expanded set has two entries. -/
theorem c2_witness :
    ((expandSynonyms (foundConditions "renal" none)).length ≤ 4) ∧
      synonymClosed (extractTargetedConditions "renal" none) :=
  ⟨by rw [show expandSynonyms (foundConditions "renal" none)
        = ["renal", "kidney disease"] from by with_unfolding_all rfl]
      decide,
   (c2_synonym_closure "renal" none).2
    (by rw [show expandSynonyms (foundConditions "renal" none)
          = ["renal", "kidney disease"] from by with_unfolding_all rfl]
        decide)⟩

/-- C6 counterexample: the claim assumes only non-null name and brand, but
`processProducts` keeps a record only when both are *truthy*
(`if (product.name && product.brand)`, lines 64 and 89): a record whose
name is the empty string — non-null — is silently dropped, so one dog
record and no cat records yield 0 entries instead of the claimed 1. -/
theorem c6_counterexample :
    (processProducts (fun _ => 0)
        [{ blankRawProduct with name := some "", brand := some "Wellness" }] []).length
        = 0 ∧
      ({ blankRawProduct with name := some "", brand := some "Wellness" } :
        RawProduct).name ≠ none ∧
      ({ blankRawProduct with name := some "", brand := some "Wellness" } :
        RawProduct).brand ≠ none := by
  refine ⟨rfl, by simp [blankRawProduct], by simp [blankRawProduct]⟩

/-- C6 (amended): a normalization call over `d` dog records and `c` cat
records, each with truthy (non-null *and* non-empty) name and brand, yields
exactly `d + c` catalog entries whose ids are `product-1` through
`product-(d+c)` in order, the dog records occupying the first `d` ids and
the cat records the remaining `c`. -/
theorem c6_sequential_ids (rand : ℕ → ℚ) (dogProducts catProducts : List RawProduct)
    (hd : ∀ p ∈ dogProducts, (jsTruthy p.name && jsTruthy p.brand) = true)
    (hc : ∀ p ∈ catProducts, (jsTruthy p.name && jsTruthy p.brand) = true) :
    (processProducts rand dogProducts catProducts).length
        = dogProducts.length + catProducts.length ∧
      (processProducts rand dogProducts catProducts).map (fun e => e.id)
        = productIds 1 (dogProducts.length + catProducts.length) ∧
      (processProducts rand dogProducts catProducts).map (fun e => e.species)
        = List.replicate dogProducts.length "dog"
            ++ List.replicate catProducts.length "cat" := by
  obtain ⟨hd1, hd2, hd3⟩ := processSpecies_spec "dog" 100 50 rand dogProducts 1 0 hd
  obtain ⟨hc1, hc2, hc3⟩ :=
    processSpecies_spec "cat" 80 40 rand catProducts
      (processSpecies "dog" 100 50 rand dogProducts 1 0).2.1
      (processSpecies "dog" 100 50 rand dogProducts 1 0).2.2 hc
  have hdlen : (processSpecies "dog" 100 50 rand dogProducts 1 0).1.length
      = dogProducts.length := by
    have := congrArg List.length hd1
    rwa [List.length_map, productIds_length] at this
  have hclen : (processSpecies "cat" 80 40 rand catProducts
      (processSpecies "dog" 100 50 rand dogProducts 1 0).2.1
      (processSpecies "dog" 100 50 rand dogProducts 1 0).2.2).1.length
      = catProducts.length := by
    have := congrArg List.length hc1
    rwa [List.length_map, productIds_length] at this
  unfold processProducts
  refine ⟨?_, ?_, ?_⟩
  · rw [List.length_append, hdlen, hclen]
  · rw [List.map_append, hd1, hc1, hd2]
    rw [productIds_add dogProducts.length 1 catProducts.length]
  · rw [List.map_append, hd3, hc3]

/-- C6 witness: the amended theorem on one usable dog record and one usable
cat record. -/
theorem c6_witness :
    (processProducts (fun _ => 0) [sampleDogRecord] [sampleCatRecord]).map
        (fun e => e.id)
      = productIds 1 ([sampleDogRecord].length + [sampleCatRecord].length) :=
  (c6_sequential_ids (fun _ => 0) [sampleDogRecord] [sampleCatRecord]
      (by intro p hp
          rw [List.mem_singleton.mp hp]
          decide)
      (by intro p hp
          rw [List.mem_singleton.mp hp]
          decide)).2.1

/-- C1 counterexample: the claim says a run with exactly one failed
category scrape still produces a snapshot with the other category's
entries.  With the dog scrape reporting failure and the cat scrape
succeeding with one usable record — which processing would turn into one
catalog entry, as the second conjunct shows — the handler instead aborts:
`if (!dogResult.success || !catResult.success) throw ...` (line 172) fires
when *either* category fails, and the `catch` returns the 500 failure
response. -/
theorem c1_counterexample :
    updateDatabaseHandler (fun _ => 0)
        (Except.ok { success := false, products := some [], totalFound := 0 })
        (Except.ok { success := true, products := some [sampleCatRecord], totalFound := 1 })
        = RunOutcome.failure "Database update failed"
            "Failed to scrape product data from one or more categories" ∧
      (processProducts (fun _ => 0) [] [sampleCatRecord]).length = 1 :=
  ⟨rfl, rfl⟩

/-- C1 (amended): the full-update run aborts before producing a snapshot
whenever *at least one* category's scrape reports non-success — not only
when both do; when both categories report success, even if one returns an
empty product list, the run produces a snapshot containing the processed
entries of both lists, with each category's raw count recorded, and does
not throw. -/
theorem c1_abort_condition :
    (∀ (rand : ℕ → ℚ) (d c : ScraperResult), d.success = true → c.success = true →
        updateDatabaseHandler rand (Except.ok d) (Except.ok c) =
          RunOutcome.success
            { products := processProducts rand (d.products.getD []) (c.products.getD [])
              totalProducts :=
                (processProducts rand (d.products.getD []) (c.products.getD [])).length
              dogCount := (d.products.getD []).length
              catCount := (c.products.getD []).length }) ∧
    (∀ (rand : ℕ → ℚ) (d c : ScraperResult),
        d.success = false ∨ c.success = false →
        updateDatabaseHandler rand (Except.ok d) (Except.ok c) =
          RunOutcome.failure "Database update failed"
            "Failed to scrape product data from one or more categories") := by
  constructor
  · intro rand d c hd hc
    unfold updateDatabaseHandler
    dsimp only
    rw [hd, hc]
    rfl
  · intro rand d c h
    unfold updateDatabaseHandler
    dsimp only
    have hfalse : (d.success && c.success) = false := by
      rcases h with h | h
      · rw [h, Bool.false_and]
      · rw [h, Bool.and_false]
    rw [hfalse]
    rfl

/-- C1 witness: both sides of the amended theorem at concrete scraper
results — a success with an empty dog list and one cat record, and a run
with a failed dog scrape. -/
theorem c1_witness :
    updateDatabaseHandler (fun _ => 0)
        (Except.ok { success := true, products := some [], totalFound := 0 })
        (Except.ok { success := true, products := some [sampleCatRecord], totalFound := 1 })
        = RunOutcome.success
            { products := processProducts (fun _ => 0) [] [sampleCatRecord]
              totalProducts := (processProducts (fun _ => 0) [] [sampleCatRecord]).length
              dogCount := 0
              catCount := 1 } ∧
      updateDatabaseHandler (fun _ => 0)
        (Except.ok { success := false, products := some [], totalFound := 0 })
        (Except.ok { success := true, products := some [sampleCatRecord], totalFound := 1 })
        = RunOutcome.failure "Database update failed"
            "Failed to scrape product data from one or more categories" :=
  ⟨c1_abort_condition.1 (fun _ => 0)
      { success := true, products := some [], totalFound := 0 }
      { success := true, products := some [sampleCatRecord], totalFound := 1 } rfl rfl,
   c1_abort_condition.2 (fun _ => 0)
      { success := false, products := some [], totalFound := 0 }
      { success := true, products := some [sampleCatRecord], totalFound := 1 }
      (Or.inl rfl)⟩

theorem isEmpty_false_of_ne_nil {α : Type} {l : List α} (h : l ≠ []) :
    l.isEmpty = false := by
  cases l with
  | nil => exact absurd rfl h
  | cons a t => rfl

/-- C5: for every price-capture list with at least one price in the
plausibility window, the extracted price structure has `estimate` equal to
the minimum of the deduplicated sorted plausible prices, `average` equal to
their arithmetic mean, and `range` equal to "$min - $max" (or the single
rendered value when only one distinct price was found); in particular the
two matches $52.99 and $54.99 yield estimate 52.99, average 53.99 and range
"$52.99 - $54.99".  (JavaScript's floating-point arithmetic is idealized as
exact rational arithmetic.) -/
theorem c5_price_aggregation :
    (∀ raw : List ℚ, raw.filter priceInRange ≠ [] →
      ∃ pi : PriceInfo, extractPricing raw = some pi ∧
        pi.estimate ∈ uniqueSorted (raw.filter priceInRange) ∧
        (∀ x ∈ uniqueSorted (raw.filter priceInRange), pi.estimate ≤ x) ∧
        pi.average = some ((uniqueSorted (raw.filter priceInRange)).sum /
          ((uniqueSorted (raw.filter priceInRange)).length : ℚ)) ∧
        (((uniqueSorted (raw.filter priceInRange)).length = 1 ∧
            pi.range = some ("$" ++ renderNum pi.estimate)) ∨
          (1 < (uniqueSorted (raw.filter priceInRange)).length ∧
            ∃ mx ∈ uniqueSorted (raw.filter priceInRange),
              (∀ x ∈ uniqueSorted (raw.filter priceInRange), x ≤ mx) ∧
              pi.range = some
                ("$" ++ renderNum pi.estimate ++ " - $" ++ renderNum mx)))) ∧
    extractPricing [(52.99 : ℚ), 54.99] = some samplePricing := by
  constructor
  · intro raw hne
    have hie := isEmpty_false_of_ne_nil hne
    have hu : uniqueSorted (raw.filter priceInRange) ≠ [] := uniqueSorted_ne_nil hne
    have hsorted := uniqueSorted_sorted (raw.filter priceInRange)
    refine ⟨{ estimate := (uniqueSorted (raw.filter priceInRange)).headD 0
              range := some (if (uniqueSorted (raw.filter priceInRange)).length > 1 then
                  "$" ++ renderNum ((uniqueSorted (raw.filter priceInRange)).headD 0)
                    ++ " - $" ++ renderNum ((uniqueSorted (raw.filter priceInRange)).getLastD 0)
                else "$" ++ renderNum ((uniqueSorted (raw.filter priceInRange)).headD 0))
              average := some ((uniqueSorted (raw.filter priceInRange)).sum /
                ((uniqueSorted (raw.filter priceInRange)).length : ℚ))
              note := estimateNote }, ?_, ?_, ?_, ?_, ?_⟩
    · unfold extractPricing extractPricingFromFound
      rw [hie]
      rfl
    · exact headD_mem hu 0
    · intro x hx
      exact sorted_headD_le hsorted hx
    · rfl
    · by_cases hlen : (uniqueSorted (raw.filter priceInRange)).length > 1
      · refine Or.inr ⟨hlen, (uniqueSorted (raw.filter priceInRange)).getLastD 0,
          mem_getLastD _ 0 hu, fun x hx => sorted_le_getLastD hsorted hx 0, ?_⟩
        show some (if (uniqueSorted (raw.filter priceInRange)).length > 1 then _ else _) = _
        rw [if_pos hlen]
      · have h1 : (uniqueSorted (raw.filter priceInRange)).length = 1 := by
          have := List.length_pos.mpr hu
          omega
        refine Or.inl ⟨h1, ?_⟩
        show some (if (uniqueSorted (raw.filter priceInRange)).length > 1 then _ else _) = _
        rw [if_neg hlen]
  · with_unfolding_all rfl

/-- C5 witness: the aggregation theorem at the concrete capture list
[52.99, 54.99]. -/
theorem c5_witness :
    ∃ pi : PriceInfo, extractPricing [(52.99 : ℚ), 54.99] = some pi ∧
      pi.estimate ∈ uniqueSorted ([(52.99 : ℚ), 54.99].filter priceInRange) ∧
      (∀ x ∈ uniqueSorted ([(52.99 : ℚ), 54.99].filter priceInRange), pi.estimate ≤ x) ∧
      pi.average = some ((uniqueSorted ([(52.99 : ℚ), 54.99].filter priceInRange)).sum /
        ((uniqueSorted ([(52.99 : ℚ), 54.99].filter priceInRange)).length : ℚ)) ∧
      (((uniqueSorted ([(52.99 : ℚ), 54.99].filter priceInRange)).length = 1 ∧
          pi.range = some ("$" ++ renderNum pi.estimate)) ∨
        (1 < (uniqueSorted ([(52.99 : ℚ), 54.99].filter priceInRange)).length ∧
          ∃ mx ∈ uniqueSorted ([(52.99 : ℚ), 54.99].filter priceInRange),
            (∀ x ∈ uniqueSorted ([(52.99 : ℚ), 54.99].filter priceInRange), x ≤ mx) ∧
            pi.range = some
              ("$" ++ renderNum pi.estimate ++ " - $" ++ renderNum mx))) :=
  c5_price_aggregation.1 [(52.99 : ℚ), 54.99]
    (by rw [show [(52.99 : ℚ), 54.99].filter priceInRange = [52.99, 54.99] from by
          with_unfolding_all rfl]
        exact List.cons_ne_nil _ _)

/-- C7: whenever the scraper extracts a price structure, its estimate lies
strictly between 5 and 500, its average does too, and the one or two
numeric values rendered into its range string lie strictly between 5 and
500; moreover a parsed price outside the open interval (5, 500) never
contributes: the extraction result depends only on the in-range captures. -/
theorem c7_price_bounds :
    (∀ (raw : List ℚ) (pi : PriceInfo), extractPricing raw = some pi →
        (5 < pi.estimate ∧ pi.estimate < 500) ∧
        (∃ avg : ℚ, pi.average = some avg ∧ 5 < avg ∧ avg < 500) ∧
        (∃ mn mx : ℚ, 5 < mn ∧ mn < 500 ∧ 5 < mx ∧ mx < 500 ∧
          (pi.range = some ("$" ++ renderNum mn) ∨
            pi.range = some ("$" ++ renderNum mn ++ " - $" ++ renderNum mx)))) ∧
    (∀ raw : List ℚ, extractPricing raw = extractPricing (raw.filter priceInRange)) := by
  constructor
  · intro raw pi h
    rcases eq_or_ne (raw.filter priceInRange) [] with hf | hne
    · rw [extractPricing, hf] at h
      simp [extractPricingFromFound] at h
    · have hie := isEmpty_false_of_ne_nil hne
      have hu : uniqueSorted (raw.filter priceInRange) ≠ [] := uniqueSorted_ne_nil hne
      have hsorted := uniqueSorted_sorted (raw.filter priceInRange)
      unfold extractPricing extractPricingFromFound at h
      rw [hie] at h
      have hpi := Option.some.inj h
      subst hpi
      have hall : ∀ x ∈ uniqueSorted (raw.filter priceInRange), 5 < x ∧ x < 500 := by
        intro x hx
        have hxf : x ∈ raw.filter priceInRange := mem_uniqueSorted.mp hx
        obtain ⟨-, hpr⟩ := List.mem_filter.mp hxf
        unfold priceInRange at hpr
        have hb := Bool.and_eq_true _ _ |>.mp hpr
        exact ⟨of_decide_eq_true hb.1, of_decide_eq_true hb.2⟩
      refine ⟨hall _ (headD_mem hu 0), ?_, ?_⟩
      · exact ⟨_, rfl, avg_mem_open hu hall⟩
      · refine ⟨(uniqueSorted (raw.filter priceInRange)).headD 0,
          (uniqueSorted (raw.filter priceInRange)).getLastD 0,
          (hall _ (headD_mem hu 0)).1, (hall _ (headD_mem hu 0)).2,
          (hall _ (mem_getLastD _ 0 hu)).1, (hall _ (mem_getLastD _ 0 hu)).2, ?_⟩
        by_cases hlen : (uniqueSorted (raw.filter priceInRange)).length > 1
        · refine Or.inr ?_
          show some (if (uniqueSorted (raw.filter priceInRange)).length > 1
            then _ else _) = _
          rw [if_pos hlen]
        · refine Or.inl ?_
          show some (if (uniqueSorted (raw.filter priceInRange)).length > 1
            then _ else _) = _
          rw [if_neg hlen]
  · intro raw
    unfold extractPricing
    rw [filter_self_idem]

/-- C7 witness: the bounds theorem at the concrete capture list
[52.99, 54.99] and its extracted price structure. -/
theorem c7_witness :
    (5 < samplePricing.estimate ∧ samplePricing.estimate < 500) ∧
      (∃ avg : ℚ, samplePricing.average = some avg ∧ 5 < avg ∧ avg < 500) ∧
      (∃ mn mx : ℚ, 5 < mn ∧ mn < 500 ∧ 5 < mx ∧ mx < 500 ∧
        (samplePricing.range = some ("$" ++ renderNum mn) ∨
          samplePricing.range = some
            ("$" ++ renderNum mn ++ " - $" ++ renderNum mx))) :=
  c7_price_bounds.1 [(52.99 : ℚ), 54.99] samplePricing (by with_unfolding_all rfl)
